import Mathlib

/-!
Verification of the River pipeline library (src/src/lib.ts).

The development shallowly embeds the Result algebra and the sequencer
function named pipeline (src/src/lib.ts, lines 411-439):

  return async (recovery?) => {
    let result;
    if (fns.length === 0) { return success(null); }
    for (const fn of fns) {
      const res = await fn(result?.value);
      if (res.isSuccess) { result = res; }
      else { if (recovery) return recovery(res); return res; }
    }
    return result;
  };

Values flow through the chain dynamically typed (the implementation
threads them as any), so the embedding uses a dynamic value universe Val.
A stage invocation can return a Result synchronously, return a promise
of a Result, or throw; after the await in the loop the first two are
indistinguishable and the third rejects the whole invocation, which the
embedding models with StageCall and awaitCall.  The overall invocation
is an async function, so its outcome is Except String (Result Val E):
Except.ok r models the returned promise resolving with r, Except.error m
models it rejecting with a thrown value whose message is m.
-/

namespace River

/-- Dynamic universe of values threaded through a pipeline; the source
threads them at type any.  vnull models the JavaScript null used by the
empty pipeline (and undefined is modelled separately as Option.none for
the first stage's missing argument). -/
inductive Val where
  | vnull
  | num (n : Int)
  | str (s : String)
  | bool (b : Bool)
  deriving DecidableEq, Repr

/-- Embedding of the tagged union Result<T, E> from src/src/lib.ts
(lines 119-130 of the concatenated file): ResultSuccess carries a value,
ResultFailure carries the value and an error tag.  The constructors are
the embeddings of the success and failure constructor functions. -/
inductive Result (T E : Type) where
  | success (value : T)
  | failure (value : T) (error : E)
  deriving DecidableEq, Repr

/-- Embedding of the isSuccess discriminant field of a Result. -/
def Result.isSuccess {T E : Type} : Result T E → Bool
  | .success _ => true
  | .failure _ _ => false

/-- Embedding of the value field, present on both variants. -/
def Result.value {T E : Type} : Result T E → T
  | .success v => v
  | .failure v _ => v

/-- Embedding of the error field of a failure (arbitrary on a success,
which mirrors that the field is absent there). -/
def Result.errTag {T E : Type} (dflt : E) : Result T E → E
  | .success _ => dflt
  | .failure _ e => e

/-- Embedding of the exported isFailure type guard from src/src/lib.ts
(lines 142-146): the negation of the isSuccess discriminant. -/
def isFailure {T E : Type} (result : Result T E) : Bool :=
  !result.isSuccess

/-- Decidable equality of Except outcomes, so that concrete runs can be
checked by decide. -/
instance {E A : Type} [DecidableEq E] [DecidableEq A] : DecidableEq (Except E A) :=
  fun a b =>
    match a, b with
    | .ok x, .ok y =>
        if h : x = y then .isTrue (congrArg Except.ok h)
        else .isFalse fun hc => h (Except.ok.inj hc)
    | .error x, .error y =>
        if h : x = y then .isTrue (congrArg Except.error h)
        else .isFalse fun hc => h (Except.error.inj hc)
    | .ok _, .error _ => .isFalse fun hc => Except.noConfusion hc
    | .error _, .ok _ => .isFalse fun hc => Except.noConfusion hc

/-- Outcome of invoking one stage (or the recovery function): it can
return a Result immediately (now), return a promise that resolves to a
Result (later), or throw / return a rejecting promise (throws, carrying
the thrown message).  MaybePromise from the source corresponds to the
now/later constructors; throws models an escaping exception. -/
inductive StageCall (α : Type) where
  | now (a : α)
  | later (a : α)
  | throws (msg : String)
  deriving DecidableEq, Repr

/-- Semantics of the await performed by the sequencer on a stage call:
a synchronous Result and a resolving promise both yield the Result, and
a thrown exception or rejecting promise re-raises. -/
def awaitCall {α : Type} : StageCall α → Except String α
  | .now a => .ok a
  | .later a => .ok a
  | .throws m => .error m

/-- A stage function as the sequencer sees it: it receives the value of
the previous success Result (none on the first iteration, where the
source passes result?.value with result still undefined) and produces a
stage call. -/
abbrev Stage (E : Type) := Option Val → StageCall (Result Val E)

/-- A recovery function as the sequencer sees it: it receives the first
failure Result and produces a stage call (the source allows recovery to
return a MaybePromise, and a throwing recovery rejects the invocation).
-/
abbrev RecFn (E : Type) := Result Val E → StageCall (Result Val E)

/-- Embedding of the for-loop of pipeline (src/src/lib.ts lines
425-437), parametrised by the optional recovery function.  The second
argument is the mutable variable result: none before any stage ran,
some r after a stage succeeded with r.  Each iteration awaits
fn(result?.value); a throw rejects the invocation (there is no
try/catch in this sequencer); a success is stored and the loop
continues; a failure returns recovery(res) when recovery is supplied
(awaited, since the async function flattens a returned promise) and
res itself otherwise.  When the list is exhausted the stored result is
returned (the getD default is unreachable from pipelineRun, which
handles the empty list before the loop, mirroring the source). -/
def pipelineGo {E : Type} (recovery : Option (RecFn E)) :
    List (Stage E) → Option (Result Val E) → Except String (Result Val E)
  | [], result => .ok (result.getD (.success Val.vnull))
  | fn :: rest, result =>
    match awaitCall (fn (result.map Result.value)) with
    | .error e => .error e
    | .ok res =>
      if res.isSuccess then
        pipelineGo recovery rest (some res)
      else
        match recovery with
        | some r => awaitCall (r res)
        | none => .ok res

/-- Embedding of one invocation of the callable built by pipeline
(src/src/lib.ts lines 416-438): the empty stage list short-circuits to
success(null) before the loop (line 421-423), otherwise the loop runs
with result initially undefined. -/
def pipelineRun {E : Type} (fns : List (Stage E))
    (recovery : Option (RecFn E)) : Except String (Result Val E) :=
  if fns.length = 0 then .ok (.success Val.vnull)
  else pipelineGo recovery fns none

/-- Specification-level predicate used to phrase hypotheses about a
prefix of the stage list: ChainSuccess fns r r' holds when, starting
from stored result r, every stage of fns is awaited without throwing
and returns a success Result, the value of each success feeding the
next stage, ending with stored result r'. -/
inductive ChainSuccess {E : Type} :
    List (Stage E) → Option (Result Val E) → Option (Result Val E) → Prop
  | nil (r : Option (Result Val E)) : ChainSuccess [] r r
  | cons {fn : Stage E} {rest : List (Stage E)}
      {r : Option (Result Val E)} {s : Result Val E}
      {r' : Option (Result Val E)}
      (hcall : awaitCall (fn (r.map Result.value)) = .ok s)
      (hs : s.isSuccess = true)
      (htail : ChainSuccess rest (some s) r') :
      ChainSuccess (fn :: rest) r r'

/-- Running the loop over a wholly successful chain yields the last
stored success (or the initial stored result for the empty chain). -/
theorem pipelineGo_chain {E : Type} (recovery : Option (RecFn E))
    {fns : List (Stage E)} {r r' : Option (Result Val E)}
    (h : ChainSuccess fns r r') :
    pipelineGo recovery fns r = .ok (r'.getD (.success Val.vnull)) := by
  induction h with
  | nil r => rfl
  | cons hcall hs htail ih =>
      simp only [pipelineGo, hcall, hs, if_true]
      exact ih

/-- Appending further stages after a wholly successful prefix: the loop
runs the prefix and continues with the stored result it produced. -/
theorem pipelineGo_append {E : Type} (recovery : Option (RecFn E))
    {pre : List (Stage E)} {r r' : Option (Result Val E)}
    (h : ChainSuccess pre r r') (rest : List (Stage E)) :
    pipelineGo recovery (pre ++ rest) r = pipelineGo recovery rest r' := by
  induction h with
  | nil r => rfl
  | cons hcall hs htail ih =>
      simp only [List.cons_append, pipelineGo, hcall, hs, if_true]
      exact ih

/-- Helper: a pipeline whose first failure follows a successful prefix,
invoked without recovery, returns that failure unchanged, whatever
stages follow. -/
theorem pipelineRun_first_failure_none {E : Type}
    {pre : List (Stage E)} {prev : Option (Result Val E)}
    (sF : Stage E) (post : List (Stage E)) {f : Result Val E}
    (hpre : ChainSuccess pre none prev)
    (hf : awaitCall (sF (prev.map Result.value)) = .ok f)
    (hfail : f.isSuccess = false) :
    pipelineRun (pre ++ sF :: post) none = .ok f := by
  unfold pipelineRun
  rw [if_neg (by simp)]
  rw [pipelineGo_append none hpre (sF :: post)]
  simp [pipelineGo, hf, hfail]

/-- Helper: with a recovery function supplied, the same invocation
returns the awaited outcome of recovery applied to the first failure,
whatever stages follow. -/
theorem pipelineRun_first_failure_some {E : Type}
    {pre : List (Stage E)} {prev : Option (Result Val E)}
    (sF : Stage E) (post : List (Stage E)) {f : Result Val E}
    (rec : RecFn E)
    (hpre : ChainSuccess pre none prev)
    (hf : awaitCall (sF (prev.map Result.value)) = .ok f)
    (hfail : f.isSuccess = false) :
    pipelineRun (pre ++ sF :: post) (some rec) = awaitCall (rec f) := by
  unfold pipelineRun
  rw [if_neg (by simp)]
  rw [pipelineGo_append (some rec) hpre (sF :: post)]
  simp [pipelineGo, hf, hfail]

/-- C1: For every pipeline built from stages pre ++ sF :: post where the
stages of pre all succeed in sequence and sF is the first stage to
return a Failure Result f, an invocation without recovery returns
exactly f; the stages in post are universally quantified and absent
from the hypotheses, so the outcome is independent of them — no stage
after the failing one is ever invoked. -/
theorem pipeline_fail_fast {E : Type}
    (pre post : List (Stage E)) (sF : Stage E)
    (prev : Option (Result Val E)) (f : Result Val E)
    (hpre : ChainSuccess pre none prev)
    (hf : awaitCall (sF (prev.map Result.value)) = .ok f)
    (hfail : f.isSuccess = false) :
    pipelineRun (pre ++ sF :: post) none = .ok f :=
  pipelineRun_first_failure_none sF post hpre hf hfail

/-- C1 witness: stages s0 = Success 1, s1 = Failure 1 tagged E, s2
arbitrary; the invocation without recovery yields exactly that
failure. -/
theorem pipeline_fail_fast_witness :
    pipelineRun
      ([fun _ => StageCall.now (Result.success (Val.num 1))] ++
        (fun _ => StageCall.now (Result.failure (Val.num 1) "E")) ::
        [fun _ => StageCall.now (Result.success (Val.num 3))])
      (none : Option (RecFn String)) =
      .ok (Result.failure (Val.num 1) "E") :=
  pipeline_fail_fast
    [fun _ => StageCall.now (Result.success (Val.num 1))]
    [fun _ => StageCall.now (Result.success (Val.num 3))]
    (fun _ => StageCall.now (Result.failure (Val.num 1) "E"))
    (some (Result.success (Val.num 1)))
    (Result.failure (Val.num 1) "E")
    (ChainSuccess.cons rfl rfl (ChainSuccess.nil _))
    rfl rfl

/-- Concrete test stage used in witnesses: a source stage returning
Success n, ignoring its (absent) argument like the arity-0 stages of
the tests. -/
def stConst (n : Int) : Stage String :=
  fun _ => StageCall.now (Result.success (Val.num n))

/-- Concrete test stage: adds k to a numeric input, mirroring the
transform stages success(s + k) of the tests. -/
def stAdd (k : Int) : Stage String := fun v =>
  match v with
  | some (Val.num n) => StageCall.now (Result.success (Val.num (n + k)))
  | _ => StageCall.throws "type error"

/-- Concrete test stage: multiplies a numeric input by k. -/
def stMul (k : Int) : Stage String := fun v =>
  match v with
  | some (Val.num n) => StageCall.now (Result.success (Val.num (n * k)))
  | _ => StageCall.throws "type error"

/-- Concrete test stage: subtracts k from a numeric input. -/
def stSub (k : Int) : Stage String := fun v =>
  match v with
  | some (Val.num n) => StageCall.now (Result.success (Val.num (n - k)))
  | _ => StageCall.throws "type error"

/-- Concrete test stage: an asynchronous multiply, returning the same
Result as stMul but wrapped in a pending promise. -/
def stMulAsync (k : Int) : Stage String := fun v =>
  match v with
  | some (Val.num n) => StageCall.later (Result.success (Val.num (n * k)))
  | _ => StageCall.throws "type error"

/-- C2: When a recovery function is supplied and sF is the first stage
to fail with f after the successful prefix pre, the invocation returns
exactly the Result out that recovery yields on f — Success or Failure,
passed through verbatim with no retry and no nested recovery — and the
outcome is independent of the universally quantified suffix post, so
execution never resumes after recovery. -/
theorem pipeline_recovery_replaces {E : Type}
    (pre post : List (Stage E)) (sF : Stage E)
    (prev : Option (Result Val E)) (f out : Result Val E) (rec : RecFn E)
    (hpre : ChainSuccess pre none prev)
    (hf : awaitCall (sF (prev.map Result.value)) = .ok f)
    (hfail : f.isSuccess = false)
    (hrec : awaitCall (rec f) = .ok out) :
    pipelineRun (pre ++ sF :: post) (some rec) = .ok out :=
  (pipelineRun_first_failure_some sF post rec hpre hf hfail).trans hrec

/-- C2 witness: s0 fails at once with Failure 0 tagged E0, recovery
returns Success 9, and the two remaining stages are skipped: the result
is Success 9. -/
theorem pipeline_recovery_replaces_witness :
    pipelineRun
      (([] : List (Stage String)) ++
        (fun _ => StageCall.now (Result.failure (Val.num 0) "E0")) ::
        [stAdd 1, stMul 2])
      (some fun _ => StageCall.now (Result.success (Val.num 9))) =
      .ok (Result.success (Val.num 9)) :=
  pipeline_recovery_replaces [] [stAdd 1, stMul 2]
    (fun _ => StageCall.now (Result.failure (Val.num 0) "E0"))
    none (Result.failure (Val.num 0) "E0") (Result.success (Val.num 9))
    (fun _ => StageCall.now (Result.success (Val.num 9)))
    (ChainSuccess.nil _) rfl rfl rfl

/-- C10: When the recovery function returns a promise of a Result (a
pending recovery), the invocation resolves with the Result that the
promise yields: the pending value is awaited and flattened by the async
sequencer, never returned as a nested pending value (the return type
contains a Result, not a further promise). -/
theorem pipeline_async_recovery {E : Type}
    (pre post : List (Stage E)) (sF : Stage E)
    (prev : Option (Result Val E)) (f out : Result Val E) (rec : RecFn E)
    (hpre : ChainSuccess pre none prev)
    (hf : awaitCall (sF (prev.map Result.value)) = .ok f)
    (hfail : f.isSuccess = false)
    (hrec : rec f = StageCall.later out) :
    pipelineRun (pre ++ sF :: post) (some rec) = .ok out := by
  rw [pipelineRun_first_failure_some sF post rec hpre hf hfail, hrec]
  rfl

/-- C10 witness: the first stage fails and the recovery returns a
promise resolving to Success 7; the invocation resolves with
Success 7 itself. -/
theorem pipeline_async_recovery_witness :
    pipelineRun
      (([] : List (Stage String)) ++
        (fun _ => StageCall.now (Result.failure (Val.num 0) "E0")) ::
        [stAdd 1])
      (some fun _ => StageCall.later (Result.success (Val.num 7))) =
      .ok (Result.success (Val.num 7)) :=
  pipeline_async_recovery [] [stAdd 1]
    (fun _ => StageCall.now (Result.failure (Val.num 0) "E0"))
    none (Result.failure (Val.num 0) "E0") (Result.success (Val.num 7))
    (fun _ => StageCall.later (Result.success (Val.num 7)))
    (ChainSuccess.nil _) rfl rfl rfl

/-- C6: When the first failing stage reports Failure x e, the failure
delivered as the final result (without recovery) and the failure passed
to the recovery function (with recovery) is exactly Failure x e,
carrying the value x the stage itself reported — x is arbitrary and
unrelated to the upstream value recorded in prev. -/
theorem pipeline_failure_value {E : Type}
    (pre post : List (Stage E)) (sF : Stage E)
    (prev : Option (Result Val E)) (x : Val) (e : E) (rec : RecFn E)
    (hpre : ChainSuccess pre none prev)
    (hf : awaitCall (sF (prev.map Result.value)) = .ok (Result.failure x e)) :
    pipelineRun (pre ++ sF :: post) none = .ok (Result.failure x e) ∧
    pipelineRun (pre ++ sF :: post) (some rec) =
      awaitCall (rec (Result.failure x e)) :=
  ⟨pipelineRun_first_failure_none sF post hpre hf rfl,
   pipelineRun_first_failure_some sF post rec hpre hf rfl⟩

/-- C6 witness: the upstream stage succeeds with 1, the failing stage
reports Failure 99 (not its input 1): without recovery the result is
Failure 99 tagged E, and an identity recovery receives exactly
Failure 99 tagged E. -/
theorem pipeline_failure_value_witness :
    pipelineRun
      ([stConst 1] ++
        (fun _ => StageCall.now (Result.failure (Val.num 99) "E")) :: [stAdd 1])
      none = .ok (Result.failure (Val.num 99) "E") ∧
    pipelineRun
      ([stConst 1] ++
        (fun _ => StageCall.now (Result.failure (Val.num 99) "E")) :: [stAdd 1])
      (some fun r => StageCall.now r) =
      awaitCall ((fun r => StageCall.now r) (Result.failure (Val.num 99) "E")) :=
  pipeline_failure_value [stConst 1] [stAdd 1]
    (fun _ => StageCall.now (Result.failure (Val.num 99) "E"))
    (some (Result.success (Val.num 1))) (Val.num 99) "E"
    (fun r => StageCall.now r)
    (ChainSuccess.cons rfl rfl (ChainSuccess.nil _)) rfl

/-- C4: When the whole stage list runs as a successful chain — each
stage awaited without throwing, each returning a Success whose value
feeds the next stage — the invocation returns the last stage's Success
Result r, for any optional recovery function (which is never
consulted). -/
theorem pipeline_all_success {E : Type}
    (fns : List (Stage E)) (r : Result Val E)
    (recovery : Option (RecFn E))
    (h : ChainSuccess fns none (some r)) :
    pipelineRun fns recovery = .ok r := by
  cases h with
  | cons hcall hs htail =>
      unfold pipelineRun
      rw [if_neg (by simp)]
      simpa using pipelineGo_chain recovery (ChainSuccess.cons hcall hs htail)

/-- C4 witness: the concrete scenario of the specification — stages
Success 1, n + 1, n * 2 — yields Success 4. -/
theorem pipeline_all_success_witness :
    pipelineRun [stConst 1, stAdd 1, stMul 2] none =
      .ok (Result.success (Val.num 4)) :=
  pipeline_all_success [stConst 1, stAdd 1, stMul 2]
    (Result.success (Val.num 4)) none
    (ChainSuccess.cons rfl rfl
      (ChainSuccess.cons rfl rfl
        (ChainSuccess.cons rfl rfl (ChainSuccess.nil _))))

/-- C5: An invocation of the pipeline built from the empty stage list
returns Success null at once, for every optional recovery function —
the recovery argument does not occur in the result, so it is never
invoked, and there is no stage to execute. -/
theorem pipeline_empty_success {E : Type} (recovery : Option (RecFn E)) :
    pipelineRun ([] : List (Stage E)) recovery = .ok (Result.success Val.vnull) :=
  rfl

/-- Congruence of the loop: two stage lists whose stages yield the same
awaited outcome on every input drive the loop identically from any
stored result. -/
theorem pipelineGo_congr {E : Type} (recovery : Option (RecFn E))
    {fns₁ fns₂ : List (Stage E)}
    (h : List.Forall₂ (fun f g => ∀ v, awaitCall (f v) = awaitCall (g v)) fns₁ fns₂) :
    ∀ prev, pipelineGo recovery fns₁ prev = pipelineGo recovery fns₂ prev := by
  induction h with
  | nil => intro prev; rfl
  | @cons f g l₁ l₂ hfg htail ih =>
      intro prev
      simp only [pipelineGo]
      rw [hfg (prev.map Result.value)]
      cases awaitCall (g (prev.map Result.value)) with
      | error e => rfl
      | ok res =>
          cases hres : res.isSuccess with
          | false => simp [hres]
          | true => simpa [hres] using ih (some res)

/-- Congruence of a whole invocation: stage lists with pointwise equal
awaited outcomes produce the same final result under the same recovery
function. -/
theorem pipelineRun_congr {E : Type}
    {fns₁ fns₂ : List (Stage E)} (recovery : Option (RecFn E))
    (h : List.Forall₂ (fun f g => ∀ v, awaitCall (f v) = awaitCall (g v)) fns₁ fns₂) :
    pipelineRun fns₁ recovery = pipelineRun fns₂ recovery := by
  cases h with
  | nil => rfl
  | @cons f g l₁ l₂ hfg htail =>
      unfold pipelineRun
      rw [if_neg (by simp), if_neg (by simp)]
      exact pipelineGo_congr recovery (List.Forall₂.cons hfg htail) none

/-- C7: Two pipelines whose corresponding stages compute the same
Results — equal awaited outcomes on every input, so one may answer with
a pending promise where the other answers synchronously — produce the
identical final Result under the same optional recovery function. -/
theorem pipeline_async_sync_uniform {E : Type}
    (fns₁ fns₂ : List (Stage E)) (recovery : Option (RecFn E))
    (h : List.Forall₂ (fun f g => ∀ v, awaitCall (f v) = awaitCall (g v)) fns₁ fns₂) :
    pipelineRun fns₁ recovery = pipelineRun fns₂ recovery :=
  pipelineRun_congr recovery h

/-- C7 witness: the mixed chain source 1, async times 2, plus 3 equals
its fully synchronous counterpart, and both yield Success 5. -/
theorem pipeline_async_sync_uniform_witness :
    pipelineRun [stConst 1, stMulAsync 2, stAdd 3] none =
      pipelineRun [stConst 1, stMul 2, stAdd 3] none ∧
    pipelineRun [stConst 1, stMul 2, stAdd 3] none =
      .ok (Result.success (Val.num 5)) :=
  ⟨pipeline_async_sync_uniform [stConst 1, stMulAsync 2, stAdd 3]
      [stConst 1, stMul 2, stAdd 3] none
      (List.Forall₂.cons (fun _ => rfl)
        (List.Forall₂.cons
          (fun v => by
            cases v with
            | none => rfl
            | some w => cases w <;> rfl)
          (List.Forall₂.cons (fun _ => rfl) List.Forall₂.nil))),
   rfl⟩

/-- C9: The final result of an invocation is a deterministic function
of the extensional behaviour of the stages and the recovery argument:
stage lists that agree pointwise produce equal final Results under the
same recovery argument.  Two invocations of one pipeline are the
special case of syntactically identical stage lists; the sequencer
threads no state between invocations. -/
theorem pipeline_deterministic {E : Type}
    (fns₁ fns₂ : List (Stage E)) (recovery : Option (RecFn E))
    (h : List.Forall₂ (fun f g => ∀ v, f v = g v) fns₁ fns₂) :
    pipelineRun fns₁ recovery = pipelineRun fns₂ recovery :=
  pipelineRun_congr recovery
    (h.imp fun _ _ hp v => congrArg awaitCall (hp v))

/-- C9 witness: two syntactically different but pointwise equal
one-stage lists give the same result. -/
theorem pipeline_deterministic_witness :
    pipelineRun [stConst 2] none =
      pipelineRun [fun _ => StageCall.now (Result.success (Val.num (1 + 1)))] none :=
  pipeline_deterministic [stConst 2]
    [fun _ => StageCall.now (Result.success (Val.num (1 + 1)))] none
    (List.Forall₂.cons (fun _ => rfl) List.Forall₂.nil)

/-- C3 (code divergence): a stage that throws is not caught by the
sequencer — there is no try/catch around the await at src/src/lib.ts
line 426 — so the invocation rejects with the thrown exception instead
of producing a synthetic SYSTEM_ERROR Failure, both without a recovery
function and with one (the recovery is bypassed, not consulted). -/
theorem pipeline_throw_escapes :
    pipelineRun [stConst 1, fun _ => StageCall.throws "boom"]
      (none : Option (RecFn String)) = .error "boom" ∧
    pipelineRun [stConst 1, fun _ => StageCall.throws "boom"]
      (some fun _ => StageCall.now (Result.success (Val.num 0))) =
      .error "boom" :=
  ⟨rfl, rfl⟩

/-- C8 counterexample: the chain applying, in order, + 1, + 2, * 2, - 1
to the source value 0 yields Success 5, not Success 7; the value 7 of
the specification arises from source value 1, as in the repository's
tests. -/
theorem pipeline_chain_from_zero :
    pipelineRun [stConst 0, stAdd 1, stAdd 2, stMul 2, stSub 1] none =
      .ok (Result.success (Val.num 5)) ∧
    pipelineRun [stConst 0, stAdd 1, stAdd 2, stMul 2, stSub 1] none ≠
      .ok (Result.success (Val.num 7)) :=
  ⟨rfl, by decide⟩

/-- C8 (amended): the all-success chain applying, in order, + 1, + 2,
* 2, - 1 to the source value 1 — the chain of the repository's tests —
yields the exact Success Result 7, each intermediate numeric
transformation exact. -/
theorem pipeline_numeric_chain :
    pipelineRun [stConst 1, stAdd 1, stAdd 2, stMul 2, stSub 1] none =
      .ok (Result.success (Val.num 7)) :=
  rfl

end River
